import Mathlib

/-!
Verification of the xastropy repository (bpholden/xastropy) against its
natural-language specification.

The development shallowly embeds the Python sources:

* `xastropy/spec/continuum.py`   — `init_conti_dict`, `get_telfer_spec`
* `xastropy/xguis/xfitllsgui.py` — `XFitLLSGUI.update_conti`, `update_model`,
  `auto_plls`, `write_out`, `init_LLS`
* `xastropy/cgm/field.py`        — `IgmGalaxyField.calc_rhoimpact`,
  `get_associated_galaxies`, `get_observed`, `get_unobserved`,
  `get_mask_obsdate`

Numpy arrays become `List ℚ`; machine floats become exact rationals (the
claims under scrutiny are about control flow, indexing and array algebra,
not rounding).  Calls into external libraries that the repository does not
contain (numpy transcendentals, linetools Voigt profiles and PSF
convolution, astropy coordinates and cosmology) are parameters, bundled in
explicit structures of function-valued fields, so every embedded routine is
a plain computable function of the state and of those externals.  Fallible
Python code (raised exceptions, `None` returns) becomes `Except`/`Option`.

The repository is Python 2 code: `xfitllsgui.py` calls the Python-2-only
builtin `unicode`, so Python 2 comparison semantics apply where relevant
(`None` compares less than every number instead of raising `TypeError`).
-/

namespace Xastropy

/-- The continuum-parameter dictionary built by `init_conti_dict`
(`continuum.py`).  The optional `piv_wv2` field models presence/absence of
the `'piv_wv2'` key (the key is popped when the argument is `None`). -/
structure ContiDict where
  Norm : ℚ
  tilt : ℚ
  tilt2 : ℚ
  piv_wv : ℚ
  piv_wv2 : Option ℚ
  igm : String
  fN_gamma : ℚ
  LL_flatten : String
deriving Repr, DecidableEq

/-- Python 2 semantics of `a > b` where `a` may be `None`: `None` compares
less than every number, so `None > b` is `False`. -/
def pyGtNum (a : Option ℚ) (b : ℚ) : Bool :=
  match a with
  | none => false
  | some x => decide (x > b)

/-- Embedding of `continuum.init_conti_dict`.  The Python builds a dict with
all keys, pops `'piv_wv2'` when that argument is `None` (here: the field is
the given option, already absent exactly when `none`), then raises
`ValueError` when `piv_wv2 > piv_wv` under Python 2 comparison. -/
def init_conti_dict (Norm : ℚ := 0) (tilt : ℚ := 0) (tilt2 : ℚ := 0)
    (piv_wv : ℚ := 0) (piv_wv2 : Option ℚ := none) (igm : String := "None")
    (fN_gamma : ℚ := -1) (LL_flatten : String := "True") :
    Except String ContiDict :=
  if pyGtNum piv_wv2 piv_wv then
    Except.error "piv_wv2 < piv_wv required!"
  else
    Except.ok ⟨Norm, tilt, tilt2, piv_wv, piv_wv2, igm, fN_gamma, LL_flatten⟩

/-- A Lyman-limit system as the GUI manipulates it: redshift, column
density, Doppler parameter (km/s) and a free-text comment
(`LLSSystem` fields used by `xfitllsgui.py`; `add_LLS` keeps the `b`
attribute of every generated line equal to `bval`). -/
structure LLSSys where
  zabs : ℚ
  NHI : ℚ
  bval : ℚ
  comment : String
deriving Repr, DecidableEq

/-- A forest-line group added by `add_forest`: a `GenericAbsSystem` carrying
a redshift and an NHI (its three HI lines are generated from these). -/
structure ForestSys where
  zabs : ℚ
  NHI : ℚ
deriving Repr, DecidableEq

/-- External library functions the GUI module calls but the repository does
not define: numpy transcendentals and power, linetools Voigt-profile
synthesis (`tau_multi_lls`, `voigt_from_abslines`), PSF convolution and
linear interpolation.  The embedded routines are parametric in these. -/
structure ExtFns where
  exp : ℚ → ℚ
  rpow : ℚ → ℚ → ℚ
  log : ℚ → ℚ
  log10 : ℚ → ℚ
  tau_multi_lls : List ℚ → List LLSSys → List ℚ
  voigt_tau : List ℚ → ForestSys → List ℚ
  convolve_psf : List ℚ → ℚ → List ℚ
  interp : List ℚ → List ℚ → List ℚ → List ℚ

/-- The `XFitLLSGUI` state touched by the embedded methods.  All spectra
(`spec`, `continuum`, `full_model`) share the spectrum's dispersion array,
as in the source (the continuum and full model are built on
`spec.dispersion`). -/
structure GuiState where
  dispersion : List ℚ
  spec_flux : List ℚ
  spec_sig : List ℚ
  base_continuum : List ℚ
  conti_dict : ContiDict
  continuum_flux : List ℚ
  lls_model : Option (List ℚ)
  full_model_flux : List ℚ
  spec_widg_model : Option (List ℚ)
  spec_widg_bad_model : List ℕ
  all_abssys : List LLSSys
  all_forest : List ForestSys
  smooth : ℚ
  zqso : Option ℚ
  dw : ℚ
  skip_wveval : Bool
deriving Repr, DecidableEq

/-- Embedding of `XFitLLSGUI.update_conti`.  `cflux = base_continuum*Norm`;
with a `'piv_wv2'` key, pixels below `piv_wv2` get the second tilt about
`piv_wv2` and the rest the first tilt about `piv_wv` (the two masked numpy
assignments, expressed pointwise); otherwise a single tilt about `piv_wv`.
Finally, when `lls_model` is not `None`, `full_model.flux` is re-set to
`lls_model * continuum.flux`. -/
def update_conti (ext : ExtFns) (s : GuiState) : GuiState :=
  let cflux := s.base_continuum.map (fun f => f * s.conti_dict.Norm)
  let newflux :=
    match s.conti_dict.piv_wv2 with
    | some pw2 =>
        (List.zip s.dispersion cflux).map (fun p =>
          if p.1 < pw2 then p.2 * ext.rpow (p.1 / pw2) s.conti_dict.tilt2
          else p.2 * ext.rpow (p.1 / s.conti_dict.piv_wv) s.conti_dict.tilt)
    | none =>
        (List.zip s.dispersion cflux).map (fun p =>
          p.2 * ext.rpow (p.1 / s.conti_dict.piv_wv) s.conti_dict.tilt)
  let s' := { s with continuum_flux := newflux }
  match s'.lls_model with
  | some lls =>
      { s' with full_model_flux := List.zipWith (· * ·) lls s'.continuum_flux }
  | none => s'

/-- `np.arange(a, b, d)` for positive step: `a, a+d, ...` while `< b`. -/
def np_arange (a b d : ℚ) : List ℚ :=
  (List.range (Int.ceil ((b - a) / d)).toNat).map (fun n => a + n * d)

/-- `np.diff`: successive differences `l[i+1] - l[i]`. -/
def np_diff (l : List ℚ) : List ℚ :=
  List.zipWith (· - ·) l.tail l

/-- Insertion of an element into a sorted list (for the sort behind
`np.median`). -/
def insertSorted (x : ℚ) : List ℚ → List ℚ
  | [] => [x]
  | y :: t => if x ≤ y then x :: y :: t else y :: insertSorted x t

/-- Sorting as numpy's `sort` does before taking a median. -/
def pySort (l : List ℚ) : List ℚ := l.foldr insertSorted []

/-- `np.median`: middle element of the sorted data, or the mean of the two
middle elements for even length. -/
def np_median (l : List ℚ) : ℚ :=
  let s := pySort l
  let n := l.length
  if n % 2 = 1 then s.getD (n / 2) 0
  else (s.getD (n / 2 - 1) 0 + s.getD (n / 2) 0) / 2

/-- Pointwise sum of equal-length numpy arrays (the `+=` in the forest
loop). -/
def addArr (a b : List ℚ) : List ℚ := List.zipWith (· + ·) a b

/-- The fine wavelength array `wa1` of `update_model`:
`np.arange(wa[0], wa[-1], dw)` unless `skip_wveval`. -/
def update_model_wa1 (s : GuiState) : List ℚ :=
  if !s.skip_wveval then
    np_arange (s.dispersion.getD 0 0) (s.dispersion.getLast?.getD 0) s.dw
  else s.dispersion

/-- The total optical depth `all_tau_model` assembled by `update_model`:
`tau_multi_lls(wa1, all_abssys)` with the Voigt tau of each forest group
accumulated on top in the forest loop. -/
def update_model_tau (ext : ExtFns) (wa1 : List ℚ) (s : GuiState) : List ℚ :=
  s.all_forest.foldl (fun acc f => addArr acc (ext.voigt_tau wa1 f))
    (ext.tau_multi_lls wa1 s.all_abssys)

/-- The unsmoothed model flux of `update_model`:
`np.exp(-1 * all_tau_model)`. -/
def update_model_flux (ext : ExtFns) (wa1 : List ℚ) (s : GuiState) : List ℚ :=
  (update_model_tau ext wa1 s).map (fun t => ext.exp (-t))

/-- The smoothed flux of `update_model`: `convolve_psf` of the unsmoothed
flux when `smooth > 0` (with the pixel-width correction unless
`skip_wveval`). -/
def update_model_flux2 (ext : ExtFns) (s : GuiState) : List ℚ :=
  let flux := update_model_flux ext (update_model_wa1 s) s
  if 0 < s.smooth then
    if !s.skip_wveval then
      ext.convolve_psf flux
        (s.smooth * (np_median (np_diff s.dispersion) / s.dw))
    else ext.convolve_psf flux s.smooth
  else flux

/-- The stored `lls_model` of `update_model`: the smoothed flux,
interpolated back onto the spectrum grid unless `skip_wveval`. -/
def update_model_lls (ext : ExtFns) (s : GuiState) : List ℚ :=
  if !s.skip_wveval then
    ext.interp s.dispersion (update_model_wa1 s) (update_model_flux2 ext s)
  else update_model_flux2 ext s

/-- Embedding of `XFitLLSGUI.update_model`.  With no absorber system it
just clears `lls_model` and `spec_widg.model`.  Otherwise it sums optical
depths on the fine array, exponentiates, smooths, interpolates (the staged
definitions above), and re-sets the full model, the over-absorbed pixel
list `spec_widg.bad_model` and `spec_widg.model`. -/
def update_model (ext : ExtFns) (s : GuiState) : GuiState :=
  if s.all_abssys = [] then
    { s with lls_model := none, spec_widg_model := none }
  else
    let lls := update_model_lls ext s
    let full := List.zipWith (· * ·) lls s.continuum_flux
    let bad := (List.range lls.length).filter (fun i =>
      decide (lls.getD i 0 < 7/10) &&
      decide (full.getD i 0 <
        s.spec_flux.getD i 0 - s.spec_sig.getD i 0 * (3/2)))
    { s with lls_model := some lls, full_model_flux := full,
             spec_widg_model := some full, spec_widg_bad_model := bad }

/-! ### `cgm/field.py`: the galaxy-field association helper -/

/-- A row of the galaxy table (`'RA'`, `'DEC'`, `'Z'`). -/
structure Galaxy where
  RA : ℚ
  DEC : ℚ
  Z : ℚ
deriving Repr, DecidableEq

/-- A row of the target table (`'TARG_RA'`, `'TARG_DEC'`, masked
`'MASK_NAME'`; `none` models a masked entry). -/
structure Target where
  TARG_RA : ℚ
  TARG_DEC : ℚ
  MASK_NAME : Option String
deriving Repr, DecidableEq

/-- A row of the observing table (`'MASK_NAME'`, masked `'DATE_OBS'`). -/
structure ObsEntry where
  MASK_NAME : String
  DATE_OBS : Option String
deriving Repr, DecidableEq

/-- External astropy machinery of `IgmGalaxyField`: the on-sky separation
of an object from the field centre (arcmin) and the cosmology's comoving
kpc per arcmin at a given redshift. -/
structure FieldExt where
  sep_gal : Galaxy → ℚ
  kpc_per_arcmin : ℚ → ℚ
  sep_targ : Target → ℚ

/-- `astropy.constants.c` in km/s. -/
def c_kms : ℚ := 299792458 / 1000

/-- Embedding of `IgmGalaxyField.calc_rhoimpact`:
`rho = ang_sep * kpc_amin(Z) / (1+Z)` per object. -/
def calc_rhoimpact (fe : FieldExt) (obj : List Galaxy) : List ℚ :=
  obj.map (fun g => fe.sep_gal g * fe.kpc_per_arcmin g.Z / (1 + g.Z))

/-- Embedding of `IgmGalaxyField.get_associated_galaxies`.  First the
velocity cut `|c*(Z-z)/(1+z)| < dv_tol` (`None` if it empties the table),
then the impact-parameter cut `rho < R` on the survivors paired with their
impact parameters (`None` if that empties them). -/
def get_associated_galaxies (fe : FieldExt) (galaxies : List Galaxy)
    (z R dv_tol : ℚ) : Option (List Galaxy × List ℚ) :=
  let gdz_gal := galaxies.filter
    (fun g => decide (|c_kms * (g.Z - z) / (1 + z)| < dv_tol))
  if gdz_gal = [] then none
  else
    let rho := calc_rhoimpact fe gdz_gal
    let pairs := (List.zip gdz_gal rho).filter (fun p => decide (p.2 < R))
    if pairs = [] then none
    else some (pairs.map Prod.fst, pairs.map Prod.snd)

/-- Numpy boolean-mask selection `subtab[tmsk]`. -/
def maskSelect {α : Type} (l : List α) (m : List Bool) : List α :=
  ((List.zip l m).filter (fun p => p.2)).map Prod.fst

/-- Embedding of `IgmGalaxyField.get_mask_obsdate`.  `mt` are the observing
rows whose `MASK_NAME` matches; with no match the Python indexes `mt[0]`
into an empty index array (`IndexError`, the error case).  If the first
matching row's `DATE_OBS` is masked the result is `[]`; otherwise the
(possibly masked) dates of all matching rows. -/
def get_mask_obsdate (observing : List ObsEntry) (mask_name : String) :
    Except String (List (Option String)) :=
  let mt := observing.filter (fun o => o.MASK_NAME == mask_name)
  match mt with
  | [] => Except.error "IndexError"
  | o :: _ =>
      if o.DATE_OBS = none then Except.ok []
      else Except.ok (mt.map (fun o2 => o2.DATE_OBS))

/-- The mask loop of `get_observed`: starting from an all-`False` observed
mask and an empty `obs_dict`, each distinct mask value with a non-empty
observing date list marks the targets carrying it as observed and records
its dates; a `get_mask_obsdate` failure aborts the loop. -/
def observed_loop (observing : List ObsEntry) (subtab : List Target)
    (uni_masks : List String) :
    Except String (List Bool × List (String × List (Option String))) :=
  uni_masks.foldl (fun acc m =>
    match acc with
    | Except.error e => Except.error e
    | Except.ok (tmsk, dict) =>
        match get_mask_obsdate observing m with
        | Except.error e => Except.error e
        | Except.ok dates =>
            if dates.length > 0 then
              Except.ok
                (List.zipWith (fun t b =>
                   if t.MASK_NAME == some m then true else b) subtab tmsk,
                 dict ++ [(m, dates)])
            else Except.ok (tmsk, dict))
    (Except.ok (List.replicate subtab.length false, []))

/-- Embedding of `IgmGalaxyField.get_observed`.  Without a `subtab` it cuts
the targets on angular separation (`None` when empty); with no unmasked
`MASK_NAME` it returns `None`; otherwise the loop over the distinct mask
values marks as observed every target whose mask has a non-empty observing
date list, collecting those dates in `obs_dict`.  (`np.unique` sorts the
distinct masks; only the marking, which is order-independent, and the
error/no-error outcome matter here, so distinctness is modelled with
`dedup`.)  An `IndexError` from `get_mask_obsdate` propagates. -/
def get_observed (fe : FieldExt) (targets : List Target)
    (observing : List ObsEntry) (theta : ℚ) (subtab0 : Option (List Target)) :
    Except String (Option (List Target × List (String × List (Option String)))) :=
  let subtabE : Option (List Target) :=
    match subtab0 with
    | some st => some st
    | none =>
        let gdsep := targets.filter (fun t => decide (fe.sep_targ t < theta))
        if gdsep = [] then none else some gdsep
  match subtabE with
  | none => Except.ok none
  | some subtab =>
      if (subtab.filter (fun t => t.MASK_NAME.isSome)) = [] then Except.ok none
      else
        let all_masks := (subtab.filter (fun t => t.MASK_NAME.isSome)).map
          (fun t => t.MASK_NAME.getD "")
        let uni_masks := all_masks.dedup
        match observed_loop observing subtab uni_masks with
        | Except.error e => Except.error e
        | Except.ok (tmsk, dict) =>
            Except.ok (some (maskSelect subtab tmsk, dict))

/-- Embedding of `IgmGalaxyField.get_unobserved`.  After the angular cut it
calls `get_observed` on the sub-table (a `None` return there makes the
tuple unpacking `obs_tab, odict = ...` raise `TypeError`, the error case)
and removes every target whose `TARG_RA` occurs among the observed
targets' `TARG_RA`. -/
def get_unobserved (fe : FieldExt) (targets : List Target)
    (observing : List ObsEntry) (theta : ℚ) :
    Except String (Option (List Target)) :=
  let gdsep := targets.filter (fun t => decide (fe.sep_targ t < theta))
  if gdsep = [] then Except.ok none
  else
    match get_observed fe targets observing theta (some gdsep) with
    | Except.error e => Except.error e
    | Except.ok none => Except.error "TypeError"
    | Except.ok (some (obs_tab, _)) =>
        let tmsk := gdsep.map (fun t =>
          !decide (t.TARG_RA ∈ obs_tab.map (fun o => o.TARG_RA)))
        Except.ok (some (maskSelect gdsep tmsk))

/-! ### `spec/continuum.py`: the Telfer template loader -/

/-- A row of the Telfer composite table (`wrest`, `flux`). -/
structure TelferRow where
  wrest : ℚ
  flux : ℚ
deriving Repr, DecidableEq

/-- A plain spectrum (dispersion and flux), as `XSpectrum1D.from_tuple`
builds one. -/
structure Spec1D where
  dispersion : List ℚ
  flux : List ℚ
deriving Repr, DecidableEq

/-- The external pieces of the experimental IGM branch of
`get_telfer_spec`: the effective-opacity integral `tau_eff.map_etl`
evaluated at an observed wavelength for a given `zem` and optional
`fN_gamma` override of the f(N) model, and `np.exp`. -/
structure IgmExt where
  map_etl : ℚ → ℚ → Option ℚ → ℚ
  exp : ℚ → ℚ

/-- Embedding of `continuum.get_telfer_spec` over a given Telfer table
(the ascii file is external data).  The spectrum is
`(wrest*(1+zqso), flux/scale[0])` with `scale` the fluxes of the rows with
`wrest == 1450`.  The `igm=True` branch multiplies pixels with
`wrest < 1220` by `exp(-tau_eff)` (the multiprocessing `pool.map` is an
order-preserving map) and, with `LL_flatten`, replaces the flux below the
rest-frame Lyman limit 911.7 by the median flux within 3 A of 914 A. -/
def get_telfer_spec (ie : IgmExt) (telfer : List TelferRow) (zqso : ℚ)
    (igm : Bool) (fN_gamma : Option ℚ) (LL_flatten : Bool) : Spec1D :=
  let scale := (telfer.filter (fun r => decide (r.wrest = 1450))).map
    (fun r => r.flux)
  let scale0 := scale.getD 0 0
  let disp := telfer.map (fun r => r.wrest * (1 + zqso))
  let flux0 := telfer.map (fun r => r.flux / scale0)
  if igm then
    let flux1 := (List.zip telfer (List.zip disp flux0)).map (fun p =>
      if p.1.wrest < 1220 then
        p.2.2 * ie.exp (-(ie.map_etl p.2.1 zqso fN_gamma))
      else p.2.2)
    let flux2 :=
      if LL_flatten then
        let wv_LL := (List.zip disp flux1).filter (fun p =>
          decide (|p.1 / (1 + zqso) - 914| < 3))
        let f_LL := np_median (wv_LL.map Prod.snd)
        (List.zip disp flux1).map (fun p =>
          if p.1 / (1 + zqso) < 911.7 then f_LL else p.2)
      else flux1
    ⟨disp, flux2⟩
  else ⟨disp, flux0⟩

/-! ### `xfitllsgui.py`: JSON fit-file writing and reading -/

/-- Python's `str.strip()` whitespace set (ASCII). -/
def pyIsSpace (c : Char) : Bool :=
  c = ' ' || c = '\t' || c = '\n' || c = '\r' ||
  c = Char.ofNat 11 || c = Char.ofNat 12

/-- Python's `str(x).strip()`: surrounding whitespace removed. -/
def pyStrip (s : String) : String :=
  String.mk (((s.data.dropWhile pyIsSpace).reverse.dropWhile
    pyIsSpace).reverse)

/-- An absorber system with its comment stripped, as `write_out` records
it. -/
def stripSys (l : LLSSys) : LLSSys := { l with comment := pyStrip l.comment }

/-- Lexicographic comparison of strings by code point, as Python compares
the JSON keys. -/
def strLtList : List Char → List Char → Bool
  | [], [] => false
  | [], _ :: _ => true
  | _ :: _, [] => false
  | a :: as, b :: bs =>
      if a.toNat < b.toNat then true
      else if b.toNat < a.toNat then false
      else strLtList as bs

/-- String comparison on the underlying character lists. -/
def pyStrLt (a b : String) : Bool := strLtList a.data b.data

/-- The JSON dict written by `write_out` (`out_dict`): the `'LLS'` sub-dict
as an association list in insertion order, the continuum parameters, the
base continuum values, the spectrum file name, the smoothing and, when not
`None`, `zqso` (the key is present iff the option is `some`). -/
structure OutDict where
  LLS : List (String × LLSSys)
  conti_model : ContiDict
  conti : List ℚ
  spec_file : String
  smooth : ℚ
  zqso : Option ℚ
deriving Repr, DecidableEq

/-- Embedding of `XFitLLSGUI.write_out`.  Each system `kk` (0-based) is
stored under key `'{:d}'.format(kk+1)` with its `zabs`, `NHI`, the `b`
value of its first line (which `add_LLS`/`setbzN` keep equal to `bval`)
and `str(comment).strip()`. -/
def write_out (s : GuiState) (spec_file : String) : OutDict where
  LLS := s.all_abssys.enum.map (fun p =>
    (toString (p.1 + 1), stripSys p.2))
  conti_model := s.conti_dict
  conti := s.base_continuum
  spec_file := spec_file
  smooth := s.smooth
  zqso := s.zqso

/-- Insertion into a key-sorted association list. -/
def insertByKey (p : String × LLSSys) :
    List (String × LLSSys) → List (String × LLSSys)
  | [] => [p]
  | q :: t => if pyStrLt p.1 q.1 then p :: q :: t else q :: insertByKey p t

/-- Sorting an association list by key. -/
def sortByKey (l : List (String × LLSSys)) : List (String × LLSSys) :=
  l.foldr insertByKey []

/-- The effect of `json.dumps(..., sort_keys=True)` followed by
`json.load` on the written dict: numbers and strings survive exactly (the
rational model has no rounding), and the `'LLS'` sub-dict comes back with
its keys in lexicographic order, which is the order `init_LLS` iterates
(`for key in lls_dict['LLS'].keys()`). -/
def json_round_trip (d : OutDict) : OutDict := { d with LLS := sortByKey d.LLS }

/-- Embedding of `XFitLLSGUI.add_LLS`: append a new system (comment and
all) and, unless called with `model=False`, rerun `update_model`.  (The
`LLS_Sys_{:d}` display label and widget bookkeeping carry no fit state.) -/
def add_LLS (ext : ExtFns) (s : GuiState) (z NHI bval : ℚ) (comment : String)
    (model : Bool) : GuiState :=
  let new_sys : LLSSys := ⟨z, NHI, bval, comment⟩
  let s' := { s with all_abssys := s.all_abssys ++ [new_sys] }
  if model then update_model ext s' else s'

/-- Embedding of `XFitLLSGUI.init_LLS` on a freshly constructed GUI state
`s0`: the written dict always has `'conti_model'`, so the continuum dict
and the base continuum are taken from it (the historic `'conti'`-only
branch is dead on files produced by `write_out`); every `'LLS'` entry is
re-added with `add_LLS(..., model=False)` in key order; finally `smooth`
and `zqso` (absent key -> `None`) are restored. -/
def init_LLS_state (ext : ExtFns) (d : OutDict) (s0 : GuiState) : GuiState :=
  let s1 := { s0 with conti_dict := d.conti_model, base_continuum := d.conti }
  let s2 := d.LLS.foldl (fun st p =>
      add_LLS ext st p.2.zabs p.2.NHI p.2.bval p.2.comment false) s1
  { s2 with smooth := d.smooth, zqso := d.zqso }

/-! ### `xfitllsgui.py`: the `auto_plls` heuristic -/

/-- `np.argmin` over rationals: index of the first minimal element (0 on an
empty array, where numpy would raise). -/
def np_argmin (l : List ℚ) : ℕ :=
  (List.range l.length).foldl
    (fun bi k => if l.getD k 0 < l.getD bi 0 then k else bi) 0

/-- `np.argmin` over the integer offset scores. -/
def np_argminNat (l : List ℕ) : ℕ :=
  (List.range l.length).foldl
    (fun bi k => if l.getD k 0 < l.getD bi 0 then k else bi) 0

/-- `np.roll`: cyclic right shift by `k`; element `i` of the result is
element `(i - k) mod n` of the input. -/
def np_roll {α : Type} (l : List α) (k : ℕ) (dflt : α) : List α :=
  (List.range l.length).map
    (fun i => l.getD ((i + l.length - k % l.length) % l.length) dflt)

/-- The candidate redshift of the clicked Lyman limit:
`z = x/911.7 - 1`. -/
def plls_z (x : ℚ) : ℚ := x / 911.7 - 1

/-- `ximn = np.argmin(|spec.dispersion - x|)`. -/
def plls_ximn (s : GuiState) (x : ℚ) : ℕ :=
  np_argmin (s.dispersion.map (fun w => |w - x|))

/-- The continuum `auto_plls` scores against: the full model when systems
already exist, else the plain continuum. -/
def plls_conti (s : GuiState) : List ℚ :=
  if s.all_abssys.length > 0 then s.full_model_flux else s.continuum_flux

/-- `NHI = 17.29 + log10(-log(y/conti[ximn]))` (numpy transcendentals are
external function parameters). -/
def plls_NHI (ext : ExtFns) (s : GuiState) (x y : ℚ) : ℚ :=
  17.29 + ext.log10 (-(ext.log (y / (plls_conti s).getD (plls_ximn s x) 0)))

/-- The toy-LLS absorbed-flux template: `convolve_psf(exp(-tau), 3)` with
`tau = tau_multi_lls(spec.dispersion, [plls])` for the candidate system
(`bval = 20` km/s; the comment field of `LLSSystem` is left at its
`'None'` default and does not enter the optical depth). -/
def plls_lls_flux (ext : ExtFns) (s : GuiState) (x y : ℚ) : List ℚ :=
  let tau := ext.tau_multi_lls s.dispersion
    [⟨plls_z x, plls_NHI ext s x y, 20, "None"⟩]
  ext.convolve_psf (tau.map (fun t => ext.exp (-t))) 3

/-- Rest wavelengths `spec.dispersion/(1+z)` for the candidate redshift. -/
def plls_wrest (s : GuiState) (x : ℚ) : List ℚ :=
  s.dispersion.map (fun w => w / (1 + plls_z x))

/-- `np.min` of a (non-empty) list. -/
def listMin (l : List ℚ) : ℚ := l.foldl min (l.headD 0)

/-- The `zmin` of `auto_plls` (next-higher LLS or the QSO): with systems
present, the smallest system redshift above the candidate minus 0.01, or
`zqso + 0.01` when none is higher; without systems, `zqso + 0.01`.  When
`zqso` is `None` the Python `self.zqso + 0.01` raises `TypeError`
(`none`). -/
def zmin_calc (s : GuiState) (zabs : ℚ) : Option ℚ :=
  if s.all_abssys.length ≠ 0 then
    let zlls := (s.all_abssys.map (fun l => l.zabs)).filter
      (fun zl => decide (zl > zabs))
    if zlls = [] then s.zqso.map (fun z => z + 0.01)
    else some (listMin zlls - 0.01)
  else s.zqso.map (fun z => z + 0.01)

/-- The analysis window `apix`: pixels with rest wavelength above 914 A and
observed wavelength below `(1+zmin)*1026` A. -/
def plls_apix (s : GuiState) (x zmin : ℚ) : List ℕ :=
  (List.range s.dispersion.length).filter (fun i =>
    decide ((plls_wrest s x).getD i 0 > 914) &&
    decide (s.dispersion.getD i 0 < (1 + zmin) * 1026))

/-- The raw number of roll offsets: pixel distance between the Lyman limit
at `zmin` and at the candidate redshift. -/
def plls_nroll0 (s : GuiState) (x zmin : ℚ) : ℤ :=
  (np_argmin (s.dispersion.map (fun w => |w - 911.7 * (1 + zmin)|)) : ℤ) -
  (np_argmin (s.dispersion.map (fun w => |w - 911.7 * (1 + plls_z x)|)) : ℤ)

/-- `np.max(apix)`. -/
def plls_amax (s : GuiState) (x zmin : ℚ) : ℕ :=
  (plls_apix s x zmin).foldl max 0

/-- `np.min(apix)`. -/
def plls_amin (s : GuiState) (x zmin : ℚ) : ℕ :=
  (plls_apix s x zmin).foldl min ((plls_apix s x zmin).headD 0)

/-- `nroll`, clipped so the rolled window stays inside the spectrum:
when `max(apix)+nroll > len(dispersion)` it becomes
`len(dispersion) - max(apix) - 1`. -/
def plls_nroll (s : GuiState) (x zmin : ℚ) : ℤ :=
  if (plls_amax s x zmin : ℤ) + plls_nroll0 s x zmin >
      (s.dispersion.length : ℤ) then
    (s.dispersion.length : ℤ) - plls_amax s x zmin - 1
  else plls_nroll0 s x zmin

/-- `gdpix = np.arange(min(apix)-nroll, max(apix)+nroll+1)` (natural-number
arithmetic; the theorems assume `nroll ≤ min(apix)`, where numpy would
otherwise wrap negative indices). -/
def plls_gdpix (s : GuiState) (x zmin : ℚ) : List ℕ :=
  let nroll := (plls_nroll s x zmin).toNat
  (List.range (plls_amax s x zmin + nroll + 1 -
      (plls_amin s x zmin - nroll))).map
    (fun i => i + (plls_amin s x zmin - nroll))

/-- `roll_flux`: the template on the window, padded with ones on both sides
(`np.concatenate([ones(nroll), lls_flux[apix], ones(nroll)])`). -/
def plls_roll_flux (ext : ExtFns) (s : GuiState) (x y zmin : ℚ) : List ℚ :=
  let nroll := (plls_nroll s x zmin).toNat
  List.replicate nroll 1 ++
    (plls_apix s x zmin).map (fun i => (plls_lls_flux ext s x y).getD i 0) ++
    List.replicate nroll 1

/-- `flux_pad = spec.flux[gdpix]`. -/
def plls_flux_pad (s : GuiState) (x zmin : ℚ) : List ℚ :=
  (plls_gdpix s x zmin).map (fun i => s.spec_flux.getD i 0)

/-- `sig_pad = spec.sig[gdpix]`. -/
def plls_sig_pad (s : GuiState) (x zmin : ℚ) : List ℚ :=
  (plls_gdpix s x zmin).map (fun i => s.spec_sig.getD i 0)

/-- `conti_pad = conti.flux[gdpix]` (both branches of the Python `if` read
the same array). -/
def plls_conti_pad (s : GuiState) (x zmin : ℚ) : List ℚ :=
  (plls_gdpix s x zmin).map (fun i => (plls_conti s).getD i 0)

/-- The flagging condition of column `kk`, row `i`: the rolled template
times the continuum undercuts `flux - 1.5*sig` and the rolled absorption
mask (`roll_flux < 0.7`) is set — `model < flux_matrix - sig_matrix*1.5`
and `mask_matrix == True`. -/
def plls_cond (ext : ExtFns) (s : GuiState) (x y zmin : ℚ) (kk i : ℕ) : Bool :=
  decide ((np_roll (plls_roll_flux ext s x y zmin) kk 0).getD i 0 *
      (plls_conti_pad s x zmin).getD i 0 <
    (plls_flux_pad s x zmin).getD i 0 -
      (plls_sig_pad s x zmin).getD i 0 * (3/2)) &&
  (np_roll ((plls_roll_flux ext s x y zmin).map (fun v => decide (v < 0.7)))
      kk false).getD i false

/-- The score of offset `kk`: the column sum of the 0/1 `bad_matrix`. -/
def plls_score (ext : ExtFns) (s : GuiState) (x y zmin : ℚ) (kk : ℕ) : ℕ :=
  ((List.range (plls_roll_flux ext s x y zmin).length).map
    (fun i => if plls_cond ext s x y zmin kk i then (1 : ℕ) else 0)).sum

/-- `bad = np.sum(bad_matrix, 0)`: one score per offset `0..nroll-1`. -/
def plls_bad (ext : ExtFns) (s : GuiState) (x y zmin : ℚ) : List ℕ :=
  (List.range (plls_nroll s x zmin).toNat).map (plls_score ext s x y zmin)

/-- `ibest = np.argmin(bad)`. -/
def plls_ibest (ext : ExtFns) (s : GuiState) (x y zmin : ℚ) : ℕ :=
  np_argminNat (plls_bad ext s x y zmin)

/-- `zbest = spec.dispersion[ibest+ximn]/911.7 - 1`. -/
def plls_zbest (ext : ExtFns) (s : GuiState) (x y zmin : ℚ) : ℚ :=
  s.dispersion.getD (plls_ibest ext s x y zmin + plls_ximn s x) 0 / 911.7 - 1

/-- Embedding of `XFitLLSGUI.auto_plls` over the staged definitions.
`none` models a raised exception: an empty spectrum (`np.argmin` of an
empty array), a `None` `zqso` reached by the `zmin` computation, an empty
analysis window (`np.max` of empty `apix`), or `nroll ≤ 0` (zero matrix
columns, `np.argmin` of an empty `bad`).  Otherwise the pLLS at `zbest` is
added via `add_LLS` exactly when `bad[ibest] < 10`; else the state is
unchanged and the no-detection message is printed (the `Bool`). -/
def auto_plls (ext : ExtFns) (s : GuiState) (x y : ℚ) :
    Option (GuiState × Bool) :=
  if s.dispersion = [] then none
  else
    match zmin_calc s (plls_z x) with
    | none => none
    | some zmin =>
        if plls_apix s x zmin = [] then none
        else if plls_nroll s x zmin ≤ 0 then none
        else
          if (plls_bad ext s x y zmin).getD (plls_ibest ext s x y zmin) 0 <
              10 then
            some (add_LLS ext s (plls_zbest ext s x y zmin)
              (plls_NHI ext s x y) 20 "None" true, false)
          else some (s, true)

/-! ### Concrete instances used by the witness theorems -/

/-- A concrete external-function bundle for evaluating witnesses. -/
def extTest : ExtFns where
  exp := fun q => 1 - q
  rpow := fun a b => a + b
  log := fun q => q - 1
  log10 := fun q => q / 10
  tau_multi_lls := fun wa sys => wa.map (fun w => w * sys.length)
  voigt_tau := fun wa f => wa.map (fun w => w + f.zabs)
  convolve_psf := fun l _ => l
  interp := fun _ _ f => f

/-- A concrete two-pixel GUI state for evaluating witnesses. -/
def sTest : GuiState where
  dispersion := [900, 1000]
  spec_flux := [1, 2]
  spec_sig := [1/10, 1/10]
  base_continuum := [2, 3]
  conti_dict := ⟨2, 1, 0, 1000, none, "None", -1, "True"⟩
  continuum_flux := [1, 1]
  lls_model := none
  full_model_flux := [1, 1]
  spec_widg_model := none
  spec_widg_bad_model := []
  all_abssys := []
  all_forest := []
  smooth := 3
  zqso := some 3
  dw := 1/10
  skip_wveval := false

/-- The concrete state with one absorber system and one forest group
(`skip_wveval` so the fine array is the two-pixel grid). -/
def s2Test : GuiState :=
  { sTest with all_abssys := [⟨3, 173/10, 20, "None"⟩],
               all_forest := [⟨2, 12⟩], skip_wveval := true }

/-- The concrete state carrying an LLS model, for the continuum/full-model
invariant. -/
def s3Test : GuiState :=
  { sTest with lls_model := some [1/2, 1/2] }

/-- A five-pixel state for exercising `auto_plls`: clicking at
`x = 2735.1 = 911.7*3` proposes a candidate at redshift 2 with
`zmin = 3.01` from `zqso = 3`. -/
def sPllsTest : GuiState :=
  { sTest with
    dispersion := [2735.1, 2750, 2760, 3655.917, 5000],
    spec_flux := [1, 1, 1, 1, 1],
    spec_sig := [1/10, 1/10, 1/10, 1/10, 1/10],
    continuum_flux := [1, 1, 1, 1, 1],
    full_model_flux := [1, 1, 1, 1, 1],
    zqso := some 3 }

/-- The concrete field externals for witnesses: separation is the object's
RA, comoving scale 1 kpc/arcmin. -/
def feTest : FieldExt := ⟨fun g => g.RA, fun _ => 1, fun t => t.TARG_RA⟩

/-- A concrete galaxy. -/
def galTest : Galaxy := ⟨1, 0, 0⟩

/-! ### Claim theorems -/

/-! ### Generic list lemmas used throughout -/

theorem getD_map_of_lt {α β : Type} (d : α) (e : β) (f : α → β) (l : List α)
    (i : ℕ) (h : i < l.length) :
    (l.map f).getD i e = f (l.getD i d) := by
  induction l generalizing i with
  | nil => simp at h
  | cons a t ih =>
    cases i with
    | zero => simp [List.getD]
    | succ j =>
      simp only [List.length_cons, Nat.succ_lt_succ_iff] at h
      simpa [List.getD] using ih j h

theorem getD_map_zip (f : ℚ × ℚ → ℚ) (a b : List ℚ) (i : ℕ)
    (ha : i < a.length) (hb : i < b.length) :
    ((List.zip a b).map f).getD i 0 = f (a.getD i 0, b.getD i 0) := by
  induction a generalizing b i with
  | nil => simp at ha
  | cons x t ih =>
    cases b with
    | nil => simp at hb
    | cons y u =>
      cases i with
      | zero => simp [List.getD]
      | succ j =>
        simp only [List.length_cons, Nat.succ_lt_succ_iff] at ha hb
        simpa [List.getD] using ih u j ha hb

theorem addArr_length (a b : List ℚ) :
    (addArr a b).length = min a.length b.length := by
  simp [addArr]

theorem addArr_replicate_zero_right (a : List ℚ) :
    addArr a (List.replicate a.length 0) = a := by
  induction a with
  | nil => rfl
  | cons x t ih => simp [addArr, List.replicate] at ih ⊢; exact ih

theorem addArr_replicate_zero_left (b : List ℚ) (n : ℕ) (h : n = b.length) :
    addArr (List.replicate n 0) b = b := by
  subst h
  induction b with
  | nil => rfl
  | cons x t ih => simp [addArr, List.replicate] at ih ⊢; exact ih

theorem addArr_assoc (a b c : List ℚ) :
    addArr (addArr a b) c = addArr a (addArr b c) := by
  induction a generalizing b c with
  | nil => rfl
  | cons x t ih =>
    cases b with
    | nil => rfl
    | cons y u =>
      cases c with
      | nil => rfl
      | cons z v => simp [addArr] at ih ⊢; constructor
                    · ring
                    · exact ih u v

theorem foldl_addArr_eq (t : List (List ℚ)) (a : List ℚ)
    (h : ∀ b ∈ t, b.length = a.length) :
    t.foldl addArr a = addArr a (t.foldl addArr (List.replicate a.length 0)) := by
  induction t generalizing a with
  | nil => exact (addArr_replicate_zero_right a).symm
  | cons b u ih =>
    have hb : b.length = a.length := h b (List.mem_cons_self b u)
    have hab : (addArr a b).length = a.length := by
      simp [addArr_length, hb]
    have h1 : ∀ c ∈ u, c.length = (addArr a b).length := by
      intro c hc; rw [hab]; exact h c (List.mem_cons_of_mem _ hc)
    have h2 : ∀ c ∈ u, c.length = b.length := by
      intro c hc; rw [hb]; exact h c (List.mem_cons_of_mem _ hc)
    calc (b :: u).foldl addArr a = u.foldl addArr (addArr a b) := rfl
      _ = addArr (addArr a b)
            (u.foldl addArr (List.replicate (addArr a b).length 0)) := ih _ h1
      _ = addArr a (addArr b
            (u.foldl addArr (List.replicate b.length 0))) := by
          rw [hab, ← hb, addArr_assoc]
      _ = addArr a (u.foldl addArr b) := by rw [← ih b h2]
      _ = addArr a (u.foldl addArr
            (addArr (List.replicate a.length 0) b)) := by
          rw [addArr_replicate_zero_left b a.length hb.symm]
      _ = addArr a ((b :: u).foldl addArr (List.replicate a.length 0)) := rfl

theorem filter_zip_map {α β : Type} (l : List α) (f : α → β) (q : β → Bool) :
    (List.zip l (l.map f)).filter (fun p => q p.2) =
      (l.filter (fun g => q (f g))).map (fun g => (g, f g)) := by
  induction l with
  | nil => rfl
  | cons a t ih =>
    by_cases h : q (f a) <;> simp [h, ih]

theorem map_fst_pair_map {α β : Type} (l : List α) (f : α → β) :
    (l.map (fun g => (g, f g))).map Prod.fst = l := by
  induction l with
  | nil => rfl
  | cons a t ih => simp [ih]

theorem map_snd_pair_map {α β : Type} (l : List α) (f : α → β) :
    (l.map (fun g => (g, f g))).map Prod.snd = l.map f := by
  induction l with
  | nil => rfl
  | cons a t ih => simp [ih]

theorem filter_filter_and {α : Type} (l : List α) (p q : α → Bool) :
    (l.filter p).filter q = l.filter (fun a => p a && q a) := by
  induction l with
  | nil => rfl
  | cons a t ih =>
    by_cases hp : p a <;> by_cases hq : q a <;> simp [hp, hq, ih]



/-- C2: with at least one absorber system, the total optical depth built by
`update_model` is the multi-system LLS optical depth plus the sum of the
Voigt optical depths of every forest group in `all_forest`, and the
unsmoothed model flux is `exp(-total)`; with no absorber system,
`update_model` sets `lls_model` and `spec_widg.model` to `None` and leaves
everything else untouched. -/
theorem update_model_spec (ext : ExtFns) (s : GuiState) :
    (s.all_abssys ≠ [] →
      (∀ f ∈ s.all_forest,
        (ext.voigt_tau (update_model_wa1 s) f).length =
          (ext.tau_multi_lls (update_model_wa1 s) s.all_abssys).length) →
      update_model_tau ext (update_model_wa1 s) s =
        addArr (ext.tau_multi_lls (update_model_wa1 s) s.all_abssys)
          ((s.all_forest.map (ext.voigt_tau (update_model_wa1 s))).foldl
            addArr
            (List.replicate
              (ext.tau_multi_lls (update_model_wa1 s) s.all_abssys).length 0))
      ∧ update_model_flux ext (update_model_wa1 s) s =
          (update_model_tau ext (update_model_wa1 s) s).map
            (fun t => ext.exp (-t)))
    ∧ (s.all_abssys = [] →
        update_model ext s =
          { s with lls_model := none, spec_widg_model := none }) := by
  constructor
  · intro _ hlen
    refine ⟨?_, rfl⟩
    have : update_model_tau ext (update_model_wa1 s) s =
        (s.all_forest.map (ext.voigt_tau (update_model_wa1 s))).foldl addArr
          (ext.tau_multi_lls (update_model_wa1 s) s.all_abssys) := by
      simp [update_model_tau, List.foldl_map]
    rw [this]
    exact foldl_addArr_eq _ _ (by
      intro b hb
      rcases List.mem_map.mp hb with ⟨f, hf, rfl⟩
      exact hlen f hf)
  · intro h
    simp [update_model, h]

/-- Witness for C2: the empty-system branch at the concrete state. -/
theorem update_model_spec_witness :
    sTest.all_abssys = [] ∧
    update_model extTest sTest =
      { sTest with lls_model := none, spec_widg_model := none } :=
  ⟨rfl, (update_model_spec extTest sTest).2 rfl⟩

/-- C9: the invariant `full_model.flux = lls_model * continuum.flux` is
re-established by `update_conti` whenever `lls_model` is not `None` and by
`update_model` whenever at least one absorber system exists (in that case
`update_model` also stores a model). -/
theorem full_model_invariant (ext : ExtFns) (s : GuiState) :
    (∀ lls, (update_conti ext s).lls_model = some lls →
      (update_conti ext s).full_model_flux =
        List.zipWith (· * ·) lls (update_conti ext s).continuum_flux)
    ∧ (s.all_abssys ≠ [] →
      (update_model ext s).lls_model.isSome ∧
      ∀ lls, (update_model ext s).lls_model = some lls →
        (update_model ext s).full_model_flux =
          List.zipWith (· * ·) lls (update_model ext s).continuum_flux) := by
  constructor
  · intro lls hlls
    cases h : s.lls_model with
    | none => simp [update_conti, h] at hlls
    | some l =>
      have hl : l = lls := by simpa [update_conti, h] using hlls
      subst hl
      simp [update_conti, h]
  · intro h
    constructor
    · simp [update_model, h]
    · intro lls hlls
      have hl : update_model_lls ext s = lls := by
        simpa [update_model, h] using hlls
      simp [update_model, h, hl]

/-- C5: `get_associated_galaxies` returns exactly the galaxies passing
both the velocity cut `|c*(Z-z)/(1+z)| < dv_tol` and the impact-parameter
cut `rho < R`, paired with their impact parameters, and returns `None`
precisely when the two cuts leave no galaxy. -/
theorem get_associated_galaxies_spec (fe : FieldExt) (galaxies : List Galaxy)
    (z R dv_tol : ℚ) :
    (get_associated_galaxies fe galaxies z R dv_tol = none ↔
      galaxies.filter (fun g =>
        decide (|c_kms * (g.Z - z) / (1 + z)| < dv_tol) &&
        decide (fe.sep_gal g * fe.kpc_per_arcmin g.Z / (1 + g.Z) < R)) = [])
    ∧ ∀ gals rhos,
        get_associated_galaxies fe galaxies z R dv_tol = some (gals, rhos) →
        gals = galaxies.filter (fun g =>
          decide (|c_kms * (g.Z - z) / (1 + z)| < dv_tol) &&
          decide (fe.sep_gal g * fe.kpc_per_arcmin g.Z / (1 + g.Z) < R))
        ∧ rhos = gals.map
            (fun g => fe.sep_gal g * fe.kpc_per_arcmin g.Z / (1 + g.Z)) := by
  have hpairs := filter_zip_map
    (galaxies.filter
      (fun g => decide (|c_kms * (g.Z - z) / (1 + z)| < dv_tol)))
    (fun g => fe.sep_gal g * fe.kpc_per_arcmin g.Z / (1 + g.Z))
    (fun v => decide (v < R))
  rw [filter_filter_and] at hpairs
  constructor
  · simp only [get_associated_galaxies, calc_rhoimpact, hpairs]
    split_ifs with h1 h2
    · simp only [true_iff]
      rw [show (galaxies.filter (fun g =>
        decide (|c_kms * (g.Z - z) / (1 + z)| < dv_tol) &&
        decide (fe.sep_gal g * fe.kpc_per_arcmin g.Z / (1 + g.Z) < R))) =
        ((galaxies.filter (fun g =>
          decide (|c_kms * (g.Z - z) / (1 + z)| < dv_tol))).filter (fun g =>
          decide (fe.sep_gal g * fe.kpc_per_arcmin g.Z / (1 + g.Z) < R)))
        from (filter_filter_and _ _ _).symm, h1]
      rfl
    · simpa using List.map_eq_nil_iff.mp h2
    · simp only [false_iff]
      intro hc
      exact h2 (by rw [hc]; rfl)
  · intro gals rhos hres
    simp only [get_associated_galaxies, calc_rhoimpact, hpairs] at hres
    split_ifs at hres with h1 h2
    have h1 := Option.some.inj hres
    have hfst := congrArg Prod.fst h1
    have hsnd := congrArg Prod.snd h1
    simp only at hfst hsnd
    rw [map_fst_pair_map] at hfst
    rw [map_snd_pair_map] at hsnd
    refine ⟨hfst.symm, ?_⟩
    rw [← hfst]
    exact hsnd.symm

/-- Witness for C5: one galaxy passing both cuts is returned with its
impact parameter. -/
theorem get_associated_galaxies_spec_witness :
    get_associated_galaxies feTest [galTest] 0 300 500 =
      some ([galTest], [1]) ∧
    [galTest] = [galTest].filter (fun g =>
      decide (|c_kms * (g.Z - 0) / (1 + 0)| < 500) &&
      decide (feTest.sep_gal g * feTest.kpc_per_arcmin g.Z / (1 + g.Z)
        < 300)) := by
  have h : get_associated_galaxies feTest [galTest] 0 300 500 =
      some ([galTest], [1]) := by
    norm_num [get_associated_galaxies, calc_rhoimpact, feTest, galTest,
      c_kms, List.filter, List.zip]
  exact ⟨h,
    ((get_associated_galaxies_spec feTest [galTest] 0 300 500).2
      [galTest] [1] h).1⟩

theorem maskSelect_map {α : Type} (l : List α) (p : α → Bool) :
    maskSelect l (l.map p) = l.filter p := by
  induction l with
  | nil => rfl
  | cons a t ih =>
    by_cases h : p a <;> simp [maskSelect, h] <;> simpa [maskSelect] using ih

theorem maskSelect_subset {α : Type} (l : List α) (m : List Bool) :
    ∀ x ∈ maskSelect l m, x ∈ l := by
  intro x hx
  simp only [maskSelect, List.mem_map, List.mem_filter] at hx
  obtain ⟨p, ⟨hzip, _⟩, rfl⟩ := hx
  exact (List.of_mem_zip hzip).1

theorem get_observed_subtab (fe : FieldExt) (targets : List Target)
    (observing : List ObsEntry) (theta : ℚ)
    (hne : targets.filter (fun t => decide (fe.sep_targ t < theta)) ≠ []) :
    get_observed fe targets observing theta none =
      get_observed fe targets observing theta
        (some (targets.filter (fun t => decide (fe.sep_targ t < theta)))) := by
  simp only [get_observed]
  rw [if_neg hne]

theorem get_observed_ok_subset (fe : FieldExt) (targets : List Target)
    (observing : List ObsEntry) (theta : ℚ) (subtab obs : List Target)
    (odict : List (String × List (Option String)))
    (h : get_observed fe targets observing theta (some subtab) =
      Except.ok (some (obs, odict))) :
    ∀ x ∈ obs, x ∈ subtab := by
  simp only [get_observed] at h
  by_cases hmask : (subtab.filter (fun t => t.MASK_NAME.isSome)) = []
  · rw [if_pos hmask] at h
    simp at h
  · rw [if_neg hmask] at h
    rcases hres : observed_loop observing subtab
        ((subtab.filter (fun t => t.MASK_NAME.isSome)).map
          (fun t => t.MASK_NAME.getD "")).dedup with e | ⟨tmsk, dict⟩
    · rw [hres] at h; simp at h
    · rw [hres] at h
      simp only [Except.ok.injEq, Option.some.injEq, Prod.mk.injEq] at h
      rw [← h.1]
      exact maskSelect_subset subtab tmsk

/-- C6 counterexample: two targets inside the angular radius share
`TARG_RA = 1`; only the first is observed, yet `get_unobserved` also drops
the second (unobserved) one, so observed ∪ unobserved misses a target
within `theta`, refuting the claimed coverage. -/
theorem get_unobserved_cover_cex :
    get_observed feTest
      [⟨1, 0, some "A"⟩, ⟨1, 2, none⟩] [⟨"A", some "d"⟩] 10 none =
      Except.ok (some ([⟨1, 0, some "A"⟩], [("A", [some "d"])])) ∧
    get_unobserved feTest
      [⟨1, 0, some "A"⟩, ⟨1, 2, none⟩] [⟨"A", some "d"⟩] 10 =
      Except.ok (some []) ∧
    feTest.sep_targ ⟨1, 2, none⟩ < 10 ∧
    (⟨1, 2, none⟩ : Target) ∉ ([⟨1, 0, some "A"⟩] : List Target) := by
  refine ⟨by rfl, by rfl, by norm_num [feTest], by decide⟩

/-- C6 (amended): `get_unobserved` returns the within-`theta` targets whose
`TARG_RA` does not occur among the observed targets'; observed and
unobserved are always disjoint, and they cover every target within `theta`
provided no two within-`theta` targets share a `TARG_RA`. -/
theorem get_unobserved_spec (fe : FieldExt) (targets : List Target)
    (observing : List ObsEntry) (theta : ℚ)
    (obs : List Target) (odict : List (String × List (Option String)))
    (unobs : List Target)
    (hobs : get_observed fe targets observing theta none =
      Except.ok (some (obs, odict)))
    (hunobs : get_unobserved fe targets observing theta =
      Except.ok (some unobs)) :
    unobs = (targets.filter (fun t => decide (fe.sep_targ t < theta))).filter
      (fun t => !decide (t.TARG_RA ∈ obs.map (fun o => o.TARG_RA)))
    ∧ (∀ t ∈ obs, t ∉ unobs)
    ∧ ((∀ t1 ∈ targets.filter (fun t => decide (fe.sep_targ t < theta)),
        ∀ t2 ∈ targets.filter (fun t => decide (fe.sep_targ t < theta)),
          t1.TARG_RA = t2.TARG_RA → t1 = t2) →
       ∀ t ∈ targets, fe.sep_targ t < theta → t ∈ obs ∨ t ∈ unobs) := by
  by_cases hne : targets.filter (fun t => decide (fe.sep_targ t < theta)) = []
  · exfalso
    simp [get_unobserved, hne] at hunobs
  · have hobs' : get_observed fe targets observing theta
        (some (targets.filter (fun t => decide (fe.sep_targ t < theta)))) =
        Except.ok (some (obs, odict)) := by
      rw [← get_observed_subtab fe targets observing theta hne]
      exact hobs
    have hun : unobs = ((targets.filter
        (fun t => decide (fe.sep_targ t < theta))).filter
        (fun t => !decide (t.TARG_RA ∈ obs.map (fun o => o.TARG_RA)))) := by
      simp only [get_unobserved] at hunobs
      rw [if_neg hne, hobs'] at hunobs
      have hunobs' : (Except.ok (some (maskSelect
          (targets.filter (fun t => decide (fe.sep_targ t < theta)))
          ((targets.filter (fun t => decide (fe.sep_targ t < theta))).map
            (fun t => !decide (t.TARG_RA ∈ obs.map (fun o => o.TARG_RA)))))) :
            Except String (Option (List Target))) =
          Except.ok (some unobs) := hunobs
      rw [maskSelect_map] at hunobs'
      simpa using hunobs'.symm
    refine ⟨hun, ?_, ?_⟩
    · intro t ht hmem
      rw [hun] at hmem
      have h2 := (List.mem_filter.mp hmem).2
      simp only [Bool.not_eq_true', decide_eq_false_iff_not] at h2
      exact h2 (List.mem_map_of_mem _ ht)
    · intro hinj t htin hsep
      have htg : t ∈ targets.filter (fun u => decide (fe.sep_targ u < theta)) :=
        List.mem_filter.mpr ⟨htin, by simpa using hsep⟩
      by_cases hobsmem : t ∈ obs
      · exact Or.inl hobsmem
      · refine Or.inr ?_
        rw [hun]
        refine List.mem_filter.mpr ⟨htg, ?_⟩
        simp only [Bool.not_eq_true', decide_eq_false_iff_not]
        intro hra
        rcases List.mem_map.mp hra with ⟨t2, ht2, hra2⟩
        have ht2g := get_observed_ok_subset fe targets observing theta _
          obs odict hobs' t2 ht2
        have : t2 = t := hinj t2 ht2g t htg hra2
        exact hobsmem (this ▸ ht2)

/-- Witness for the amended C6: with distinct `TARG_RA` the unobserved
table is exactly the within-radius complement of the observed one. -/
theorem get_unobserved_spec_witness :
    get_observed feTest
      [⟨1, 0, some "A"⟩, ⟨2, 3, none⟩] [⟨"A", some "d"⟩] 10 none =
      Except.ok (some ([⟨1, 0, some "A"⟩], [("A", [some "d"])])) ∧
    get_unobserved feTest
      [⟨1, 0, some "A"⟩, ⟨2, 3, none⟩] [⟨"A", some "d"⟩] 10 =
      Except.ok (some [⟨2, 3, none⟩]) ∧
    ∀ t ∈ ([⟨1, 0, some "A"⟩] : List Target), t ∉ ([⟨2, 3, none⟩] : List Target) := by
  have h1 : get_observed feTest
      [⟨1, 0, some "A"⟩, ⟨2, 3, none⟩] [⟨"A", some "d"⟩] 10 none =
      Except.ok (some ([⟨1, 0, some "A"⟩], [("A", [some "d"])])) := by rfl
  have h2 : get_unobserved feTest
      [⟨1, 0, some "A"⟩, ⟨2, 3, none⟩] [⟨"A", some "d"⟩] 10 =
      Except.ok (some [⟨2, 3, none⟩]) := by rfl
  refine ⟨h1, h2, ?_⟩
  have h3 := (get_unobserved_spec feTest
    [⟨1, 0, some "A"⟩, ⟨2, 3, none⟩] [⟨"A", some "d"⟩] 10
    [⟨1, 0, some "A"⟩] [("A", [some "d"])] [⟨2, 3, none⟩] h1 h2).2.1
  exact h3

/-- Witness for C9: at the concrete state carrying an LLS model,
`update_conti` leaves the full model equal to model times continuum. -/
theorem full_model_invariant_witness :
    (update_conti extTest s3Test).lls_model = some [1/2, 1/2] ∧
    (update_conti extTest s3Test).full_model_flux =
      List.zipWith (· * ·) [1/2, 1/2]
        (update_conti extTest s3Test).continuum_flux :=
  ⟨rfl, (full_model_invariant extTest s3Test).1 [1/2, 1/2] rfl⟩

/-- C8: `init_conti_dict` raises `ValueError` if and only if `piv_wv2` is
not `None` and `piv_wv2 > piv_wv`; otherwise it returns a dict containing
the `'piv_wv2'` key if and only if `piv_wv2` is not `None`; in particular
the default call returns normally without the key. -/
theorem init_conti_dict_spec (Norm tilt tilt2 piv_wv : ℚ) (piv_wv2 : Option ℚ)
    (igm : String) (fN_gamma : ℚ) (LL_flatten : String) :
    ((∃ e, init_conti_dict Norm tilt tilt2 piv_wv piv_wv2 igm fN_gamma
        LL_flatten = Except.error e) ↔ ∃ v, piv_wv2 = some v ∧ v > piv_wv)
    ∧ (∀ d, init_conti_dict Norm tilt tilt2 piv_wv piv_wv2 igm fN_gamma
        LL_flatten = Except.ok d → (d.piv_wv2.isSome ↔ piv_wv2.isSome))
    ∧ (∃ d, init_conti_dict = Except.ok d ∧ d.piv_wv2 = none) := by
  refine ⟨?_, ?_, ?_⟩
  · cases piv_wv2 with
    | none => simp [init_conti_dict, pyGtNum]
    | some v =>
      by_cases h : v > piv_wv
      · simp [init_conti_dict, pyGtNum, h]
      · simp [init_conti_dict, pyGtNum, h]
  · intro d hd
    cases piv_wv2 with
    | none =>
      simp only [init_conti_dict, pyGtNum, if_neg] at hd
      cases hd; simp
    | some v =>
      by_cases h : v > piv_wv
      · simp [init_conti_dict, pyGtNum, h] at hd
      · simp [init_conti_dict, pyGtNum, h] at hd
        simp [← hd]
  · exact ⟨_, rfl, rfl⟩

/-- Witness for C8: with `piv_wv2 = 2 > piv_wv = 1` the call raises. -/
theorem init_conti_dict_spec_witness :
    ∃ e, init_conti_dict 0 0 0 1 (some 2) "None" (-1) "True" =
      Except.error e :=
  (init_conti_dict_spec 0 0 0 1 (some 2) "None" (-1) "True").1.mpr
    ⟨2, rfl, by norm_num⟩

/-- C3: `update_conti` sets the continuum flux pointwise: without `'piv_wv2'`
every pixel gets `base_continuum * Norm * (lambda/piv_wv)^tilt`; with it,
pixels with `lambda < piv_wv2` get `base_continuum * Norm *
(lambda/piv_wv2)^tilt2` and the rest `base_continuum * Norm *
(lambda/piv_wv)^tilt`. -/
theorem update_conti_spec (ext : ExtFns) (s : GuiState)
    (hlen : s.base_continuum.length = s.dispersion.length)
    (i : ℕ) (hi : i < s.dispersion.length) :
    (update_conti ext s).continuum_flux.getD i 0 =
      match s.conti_dict.piv_wv2 with
      | none => s.base_continuum.getD i 0 * s.conti_dict.Norm *
          ext.rpow (s.dispersion.getD i 0 / s.conti_dict.piv_wv)
            s.conti_dict.tilt
      | some pw2 =>
          if s.dispersion.getD i 0 < pw2 then
            s.base_continuum.getD i 0 * s.conti_dict.Norm *
              ext.rpow (s.dispersion.getD i 0 / pw2) s.conti_dict.tilt2
          else
            s.base_continuum.getD i 0 * s.conti_dict.Norm *
              ext.rpow (s.dispersion.getD i 0 / s.conti_dict.piv_wv)
                s.conti_dict.tilt := by
  have hflux : (update_conti ext s).continuum_flux =
      match s.conti_dict.piv_wv2 with
      | some pw2 =>
          (List.zip s.dispersion
            (s.base_continuum.map (fun f => f * s.conti_dict.Norm))).map
            (fun p =>
              if p.1 < pw2 then p.2 * ext.rpow (p.1 / pw2) s.conti_dict.tilt2
              else p.2 * ext.rpow (p.1 / s.conti_dict.piv_wv)
                s.conti_dict.tilt)
      | none =>
          (List.zip s.dispersion
            (s.base_continuum.map (fun f => f * s.conti_dict.Norm))).map
            (fun p =>
              p.2 * ext.rpow (p.1 / s.conti_dict.piv_wv)
                s.conti_dict.tilt) := by
    cases h : s.lls_model <;> simp [update_conti, h]
  have hmlen : i < (s.base_continuum.map
      (fun f => f * s.conti_dict.Norm)).length := by
    simpa [hlen] using hi
  have hbase : i < s.base_continuum.length := by simpa [hlen] using hi
  cases hpw : s.conti_dict.piv_wv2 with
  | none =>
    rw [hflux, hpw]
    rw [getD_map_zip _ _ _ _ hi hmlen, getD_map_of_lt 0 0 _ _ _ hbase]
  | some pw2 =>
    rw [hflux, hpw]
    rw [getD_map_zip _ _ _ _ hi hmlen, getD_map_of_lt 0 0 _ _ _ hbase]

/-- Witness for C3: the single-tilt branch at pixel 0 of the concrete
state. -/
theorem update_conti_spec_witness :
    sTest.base_continuum.length = sTest.dispersion.length ∧
    (update_conti extTest sTest).continuum_flux.getD 0 0 =
      2 * 2 * extTest.rpow (900 / 1000) 1 := by
  refine ⟨rfl, ?_⟩
  simpa using update_conti_spec extTest sTest rfl 0 (by decide)

/-- C7: with `igm=False` (the default), `get_telfer_spec` returns the
Telfer template on `wrest*(1+zqso)` with flux normalized to unity at the
(first) rest-wavelength-1450 pixel, and the result does not depend on
`fN_gamma` or `LL_flatten`. -/
theorem get_telfer_spec_c7 (ie : IgmExt) (telfer : List TelferRow) (zqso : ℚ)
    (g1 g2 : Option ℚ) (L1 L2 : Bool) :
    (get_telfer_spec ie telfer zqso false g1 L1).dispersion =
      telfer.map (fun r => r.wrest * (1 + zqso))
    ∧ (∀ j, j < telfer.length →
        (telfer.take j).filter (fun r => decide (r.wrest = 1450)) = [] →
        (telfer.getD j ⟨0, 0⟩).wrest = 1450 →
        (telfer.getD j ⟨0, 0⟩).flux ≠ 0 →
        (get_telfer_spec ie telfer zqso false g1 L1).flux.getD j 0 = 1)
    ∧ get_telfer_spec ie telfer zqso false g1 L1 =
        get_telfer_spec ie telfer zqso false g2 L2 := by
  refine ⟨rfl, ?_, rfl⟩
  intro j hj hfirst hw hnz
  have hflux : (get_telfer_spec ie telfer zqso false g1 L1).flux =
      telfer.map (fun r => r.flux /
        ((telfer.filter (fun r => decide (r.wrest = 1450))).map
          (fun r => r.flux)).getD 0 0) := rfl
  have hdrop : telfer.drop j = telfer.getD j ⟨0, 0⟩ :: telfer.drop (j + 1) := by
    have h1 := List.drop_eq_getElem_cons hj
    rwa [← List.getD_eq_getElem telfer ⟨0, 0⟩ hj] at h1
  have hfilter : telfer.filter (fun r => decide (r.wrest = 1450)) =
      telfer.getD j ⟨0, 0⟩ ::
        (telfer.drop (j + 1)).filter (fun r => decide (r.wrest = 1450)) := by
    conv_lhs => rw [← List.take_append_drop j telfer]
    rw [List.filter_append, hfirst, hdrop, List.filter_cons]
    rw [hw]
    norm_num
  rw [hflux, getD_map_of_lt ⟨0, 0⟩ 0 _ _ _ hj, hfilter]
  simp only [List.map_cons, List.getD_cons_zero]
  exact div_self hnz

/-- Witness for C7: a two-row table with the 1450 row first. -/
theorem get_telfer_spec_c7_witness :
    ((0 : ℕ) < ([⟨1450, 2⟩, ⟨1000, 1⟩] : List TelferRow).length) ∧
    (get_telfer_spec ⟨fun _ _ _ => 0, fun q => q⟩ [⟨1450, 2⟩, ⟨1000, 1⟩]
      1 false none true).flux.getD 0 0 = 1 := by
  refine ⟨by norm_num, ?_⟩
  exact (get_telfer_spec_c7 ⟨fun _ _ _ => 0, fun q => q⟩
    [⟨1450, 2⟩, ⟨1000, 1⟩] 1 none none true true).2.1 0 (by norm_num) rfl rfl
    (by norm_num)

theorem map_snd_enum_map {α β : Type} (l : List α) (key : ℕ → String)
    (g : α → β) :
    (l.enum.map (fun p => (key p.1, g p.2))).map Prod.snd = l.map g := by
  rw [List.map_map]
  have h1 : (Prod.snd ∘ fun p : ℕ × α => (key p.1, g p.2)) =
      g ∘ Prod.snd := rfl
  rw [h1, ← List.map_map, List.enum_map_snd]

theorem insertByKey_perm (p : String × LLSSys) (l : List (String × LLSSys)) :
    (insertByKey p l).Perm (p :: l) := by
  induction l with
  | nil => exact List.Perm.refl _
  | cons q t ih =>
    by_cases h : pyStrLt p.1 q.1
    · simp [insertByKey, h]
    · simp only [insertByKey, if_neg h]
      exact (ih.cons q).trans (List.Perm.swap p q t)

theorem sortByKey_perm (l : List (String × LLSSys)) : (sortByKey l).Perm l := by
  induction l with
  | nil => exact List.Perm.refl _
  | cons p t ih => exact (insertByKey_perm p (sortByKey t)).trans (ih.cons p)

theorem foldl_add_LLS (ext : ExtFns) (l : List (String × LLSSys))
    (st : GuiState) :
    l.foldl (fun st p =>
      add_LLS ext st p.2.zabs p.2.NHI p.2.bval p.2.comment false) st =
    { st with all_abssys := st.all_abssys ++ l.map Prod.snd } := by
  induction l generalizing st with
  | nil => simp
  | cons p t ih =>
    rw [List.foldl_cons, ih]
    simp [add_LLS, List.append_assoc]

theorem init_LLS_state_eq (ext : ExtFns) (d : OutDict) (s0 : GuiState) :
    init_LLS_state ext d s0 =
      { s0 with conti_dict := d.conti_model, base_continuum := d.conti,
                all_abssys := s0.all_abssys ++ d.LLS.map Prod.snd,
                smooth := d.smooth, zqso := d.zqso } := by
  simp only [init_LLS_state]
  rw [foldl_add_LLS]

/-- C4 counterexample: a single system whose comment carries leading
whitespace.  `write_out` stores `str(comment).strip()`, so the re-read
state differs from the written one: the round trip is not the identity. -/
theorem write_read_cex :
    (init_LLS_state extTest
      (json_round_trip (write_out
        { sTest with all_abssys := [⟨2, 17, 20, " x"⟩] } "f"))
      sTest).all_abssys ≠
    ({ sTest with all_abssys := [⟨2, 17, 20, " x"⟩] } : GuiState).all_abssys := by
  decide

/-- C4 (amended): the write/read round trip restores `conti_dict`, the
base continuum, `smooth` and `zqso` exactly; the absorber systems come
back with each comment stripped of surrounding whitespace and in the JSON
key order (`sort_keys=True`), i.e. as a permutation of the stripped
originals, each keeping its redshift, NHI and b-value. -/
theorem write_read_round_trip (ext : ExtFns) (s s0 : GuiState) (fn : String)
    (h0 : s0.all_abssys = []) :
    (init_LLS_state ext (json_round_trip (write_out s fn)) s0).conti_dict =
      s.conti_dict ∧
    (init_LLS_state ext (json_round_trip (write_out s fn)) s0).base_continuum =
      s.base_continuum ∧
    (init_LLS_state ext (json_round_trip (write_out s fn)) s0).smooth =
      s.smooth ∧
    (init_LLS_state ext (json_round_trip (write_out s fn)) s0).zqso =
      s.zqso ∧
    (init_LLS_state ext (json_round_trip (write_out s fn)) s0).all_abssys.Perm
      (s.all_abssys.map stripSys) := by
  rw [init_LLS_state_eq]
  refine ⟨rfl, rfl, rfl, rfl, ?_⟩
  rw [h0]
  simp only [List.nil_append, json_round_trip, write_out]
  have hperm := (sortByKey_perm
    (s.all_abssys.enum.map (fun p =>
      (toString (p.1 + 1), stripSys p.2)))).map Prod.snd
  have hmap := map_snd_enum_map s.all_abssys (fun n => toString (n + 1))
    stripSys
  rw [hmap] at hperm
  exact hperm

/-- Witness for the amended C4: the one-system concrete state round-trips
onto the stripped originals. -/
theorem write_read_round_trip_witness :
    sTest.all_abssys = [] ∧
    (init_LLS_state extTest (json_round_trip (write_out s2Test "f"))
      sTest).zqso = s2Test.zqso ∧
    (init_LLS_state extTest (json_round_trip (write_out s2Test "f"))
      sTest).all_abssys.Perm (s2Test.all_abssys.map stripSys) :=
  ⟨rfl,
   (write_read_round_trip extTest s2Test sTest "f" rfl).2.2.2.1,
   (write_read_round_trip extTest s2Test sTest "f" rfl).2.2.2.2⟩

theorem getD_range (n i : ℕ) (h : i < n) : (List.range n).getD i 0 = i := by
  rw [List.getD_eq_getElem (List.range n) 0 (by simpa using h)]
  simp

theorem getD_range_map {β : Type} (g : ℕ → β) (n i : ℕ) (e : β) (h : i < n) :
    ((List.range n).map g).getD i e = g i := by
  rw [getD_map_of_lt 0 e g (List.range n) i (by simpa using h),
    getD_range n i h]

theorem sum_ite_one_eq_countP (p : ℕ → Bool) (l : List ℕ) :
    (l.map (fun i => if p i then (1 : ℕ) else 0)).sum = l.countP p := by
  induction l with
  | nil => rfl
  | cons a t ih =>
    by_cases h : p a
    · simp [h, ih, List.countP_cons]
      omega
    · simp [h, ih, List.countP_cons]

theorem np_roll_map_getD {α β : Type} (f : α → β) (l : List α) (k i : ℕ)
    (d : α) (e : β) (hi : i < l.length) :
    (np_roll (l.map f) k e).getD i e = f ((np_roll l k d).getD i d) := by
  have hn : 0 < l.length := lt_of_le_of_lt (Nat.zero_le i) hi
  have hidx : (i + l.length - k % l.length) % l.length < l.length :=
    Nat.mod_lt _ hn
  simp only [np_roll, List.length_map]
  rw [getD_range_map _ _ _ _ hi, getD_range_map _ _ _ _ hi]
  exact getD_map_of_lt d e f l _ hidx

theorem argmin_foldl_le (l : List ℕ) (ks : List ℕ) (b : ℕ) :
    l.getD (ks.foldl
      (fun bi k => if l.getD k 0 < l.getD bi 0 then k else bi) b) 0 ≤
      l.getD b 0 ∧
    ∀ k ∈ ks,
      l.getD (ks.foldl
        (fun bi k => if l.getD k 0 < l.getD bi 0 then k else bi) b) 0 ≤
        l.getD k 0 := by
  induction ks generalizing b with
  | nil => exact ⟨le_refl _, by simp⟩
  | cons k t ih =>
    simp only [List.foldl_cons]
    by_cases h : l.getD k 0 < l.getD b 0
    · rw [if_pos h]
      refine ⟨le_trans (ih k).1 (le_of_lt h), ?_⟩
      intro k2 hk2
      rcases List.mem_cons.mp hk2 with rfl | hk2
      · exact (ih k2).1
      · exact (ih k).2 k2 hk2
    · rw [if_neg h]
      push_neg at h
      refine ⟨(ih b).1, ?_⟩
      intro k2 hk2
      rcases List.mem_cons.mp hk2 with rfl | hk2
      · exact le_trans (ih b).1 h
      · exact (ih b).2 k2 hk2

theorem argmin_foldl_lt (l : List ℕ) (ks : List ℕ) (b n : ℕ) :
    b < n → (∀ k ∈ ks, k < n) →
    ks.foldl (fun bi k => if l.getD k 0 < l.getD bi 0 then k else bi) b
      < n := by
  induction ks generalizing b with
  | nil => intro hb _; exact hb
  | cons k t ih =>
    intro hb hks
    simp only [List.foldl_cons]
    by_cases h : l.getD k 0 < l.getD b 0
    · rw [if_pos h]
      exact ih k (hks k (List.mem_cons_self k t))
        (fun k2 hk2 => hks k2 (List.mem_cons_of_mem _ hk2))
    · rw [if_neg h]
      exact ih b hb (fun k2 hk2 => hks k2 (List.mem_cons_of_mem _ hk2))

theorem np_argminNat_le (l : List ℕ) (k : ℕ) (hk : k < l.length) :
    l.getD (np_argminNat l) 0 ≤ l.getD k 0 :=
  (argmin_foldl_le l (List.range l.length) 0).2 k (List.mem_range.mpr hk)

theorem np_argminNat_lt (l : List ℕ) (h : 0 < l.length) :
    np_argminNat l < l.length :=
  argmin_foldl_lt l (List.range l.length) 0 l.length h
    (fun k hk => List.mem_range.mp hk)

theorem update_model_abssys (ext : ExtFns) (s : GuiState) :
    (update_model ext s).all_abssys = s.all_abssys := by
  by_cases h : s.all_abssys = [] <;> simp [update_model, h]

theorem plls_bad_getD (ext : ExtFns) (s : GuiState) (x y zmin : ℚ) (kk : ℕ)
    (hk : kk < (plls_nroll s x zmin).toNat) :
    (plls_bad ext s x y zmin).getD kk 0 = plls_score ext s x y zmin kk := by
  simp only [plls_bad]
  exact getD_range_map _ _ _ _ hk

/-- C10: when no already-added system lies above the candidate redshift
`x/911.7 - 1` and the GUI has no `zqso` (`None`), the
`zmin = self.zqso + 0.01` computation fails, so `auto_plls` raises instead
of completing. -/
theorem auto_plls_requires_zqso (ext : ExtFns) (s : GuiState) (x y : ℚ)
    (hno : (s.all_abssys.map (fun l => l.zabs)).filter
      (fun zl => decide (zl > plls_z x)) = [])
    (hz : s.zqso = none) :
    auto_plls ext s x y = none := by
  have hzmin : zmin_calc s (plls_z x) = none := by
    by_cases hlen : s.all_abssys.length ≠ 0 <;>
      simp [zmin_calc, hlen, hno, hz]
  by_cases hd : s.dispersion = [] <;> simp [auto_plls, hd, hzmin]

/-- Witness for C10: the empty-system, `zqso = None` state. -/
theorem auto_plls_requires_zqso_witness :
    ((({ sTest with zqso := none } : GuiState).all_abssys.map
      (fun l => l.zabs)).filter (fun zl => decide (zl > plls_z 1000))) = []
    ∧ auto_plls extTest { sTest with zqso := none } 1000 1 = none :=
  ⟨rfl, auto_plls_requires_zqso extTest _ 1000 1 rfl rfl⟩

/-- C1: under the preconditions that make the Python run to completion
(a computed `zmin`, a non-empty spectrum and analysis window, a positive
clipped `nroll` that keeps the padded window inside the spectrum, and the
window being one contiguous index block), `auto_plls(x, y)`:
(1) analyses exactly the pixels with rest wavelength above 914 A and
observed wavelength below `(1+zmin)*1026` A; (2) scores each offset
`0..nroll-1` by counting pixels where the shifted template times the
continuum falls below the flux minus 1.5 times the error within the
template's absorbed region (shifted template `< 0.7`); (3) `ibest`
minimises that score; (4) the proposed redshift is
`spec.dispersion[ibest+ximn]/911.7 - 1`; and (5) that LLS is added to the
system list iff the minimal score is below 10, the state otherwise
unchanged with the no-detection message printed. -/
theorem auto_plls_spec (ext : ExtFns) (s : GuiState) (x y zmin : ℚ)
    (hzmin : zmin_calc s (plls_z x) = some zmin)
    (hd : s.dispersion ≠ [])
    (ha : plls_apix s x zmin ≠ [])
    (hn : 0 < plls_nroll s x zmin)
    (hlo : (plls_nroll s x zmin).toNat ≤ plls_amin s x zmin)
    (hhi : plls_amax s x zmin + (plls_nroll s x zmin).toNat <
      s.dispersion.length)
    (hcont : (plls_apix s x zmin).length =
      plls_amax s x zmin - plls_amin s x zmin + 1) :
    (∀ i, i ∈ plls_apix s x zmin ↔
      (i < s.dispersion.length ∧
       s.dispersion.getD i 0 / (1 + plls_z x) > 914 ∧
       s.dispersion.getD i 0 < (1 + zmin) * 1026))
    ∧ (∀ kk, plls_score ext s x y zmin kk =
        (List.range (plls_roll_flux ext s x y zmin).length).countP (fun i =>
          decide ((np_roll (plls_roll_flux ext s x y zmin) kk 0).getD i 0 *
              (plls_conti_pad s x zmin).getD i 0 <
            (plls_flux_pad s x zmin).getD i 0 -
              (plls_sig_pad s x zmin).getD i 0 * (3/2)) &&
          decide ((np_roll (plls_roll_flux ext s x y zmin) kk 0).getD i 0 <
            0.7)))
    ∧ (∀ kk < (plls_nroll s x zmin).toNat,
        plls_score ext s x y zmin (plls_ibest ext s x y zmin) ≤
          plls_score ext s x y zmin kk)
    ∧ plls_zbest ext s x y zmin =
        s.dispersion.getD (plls_ibest ext s x y zmin + plls_ximn s x) 0 /
          911.7 - 1
    ∧ auto_plls ext s x y = some (
        if plls_score ext s x y zmin (plls_ibest ext s x y zmin) < 10 then
          (add_LLS ext s (plls_zbest ext s x y zmin) (plls_NHI ext s x y)
            20 "None" true, false)
        else (s, true))
    ∧ (add_LLS ext s (plls_zbest ext s x y zmin) (plls_NHI ext s x y)
        20 "None" true).all_abssys =
      s.all_abssys ++ [⟨plls_zbest ext s x y zmin, plls_NHI ext s x y, 20,
        "None"⟩] := by
  have hnn : 0 < (plls_nroll s x zmin).toNat := by omega
  have hblen : (plls_bad ext s x y zmin).length =
      (plls_nroll s x zmin).toNat := by simp [plls_bad]
  have hib : plls_ibest ext s x y zmin < (plls_nroll s x zmin).toNat := by
    have h1 := np_argminNat_lt (plls_bad ext s x y zmin)
      (by rw [hblen]; exact hnn)
    rwa [hblen] at h1
  refine ⟨?_, ?_, ?_, rfl, ?_, ?_⟩
  · intro i
    constructor
    · intro h
      obtain ⟨hr, hc⟩ := List.mem_filter.mp h
      have hi := List.mem_range.mp hr
      simp only [Bool.and_eq_true, decide_eq_true_eq] at hc
      refine ⟨hi, ?_, hc.2⟩
      have h2 := hc.1
      rwa [plls_wrest, getD_map_of_lt 0 0 _ _ _ hi] at h2
    · rintro ⟨hi, h1, h2⟩
      refine List.mem_filter.mpr ⟨List.mem_range.mpr hi, ?_⟩
      simp only [Bool.and_eq_true, decide_eq_true_eq]
      exact ⟨by rwa [plls_wrest, getD_map_of_lt 0 0 _ _ _ hi], h2⟩
  · intro kk
    rw [plls_score, sum_ite_one_eq_countP]
    apply List.countP_congr
    intro i hi
    have hlt : i < (plls_roll_flux ext s x y zmin).length :=
      List.mem_range.mp hi
    simp only [plls_cond]
    rw [np_roll_map_getD (fun v => decide (v < 0.7))
      (plls_roll_flux ext s x y zmin) kk i 0 false hlt]
  · intro kk hk
    have h1 := np_argminNat_le (plls_bad ext s x y zmin) kk
      (by rw [hblen]; exact hk)
    have h2 : plls_ibest ext s x y zmin =
        np_argminNat (plls_bad ext s x y zmin) := rfl
    rw [← h2] at h1
    rwa [plls_bad_getD ext s x y zmin _ hib,
      plls_bad_getD ext s x y zmin _ hk] at h1
  · have hneg : ¬ plls_nroll s x zmin ≤ 0 := not_le.mpr hn
    simp only [auto_plls, if_neg hd, hzmin, if_neg ha, if_neg hneg,
      plls_bad_getD ext s x y zmin _ hib]
    split_ifs <;> rfl
  · simp [add_LLS, update_model_abssys]

/-- Witness for C1: the concrete five-pixel click satisfies every
precondition, the analysis window is pixels 1..3 with one roll offset, and
pixel 2 is in the window by the window characterization. -/
theorem auto_plls_spec_witness :
    zmin_calc sPllsTest (plls_z 2735.1) = some (301/100) ∧
    plls_apix sPllsTest 2735.1 (301/100) = [1, 2, 3] ∧
    plls_nroll sPllsTest 2735.1 (301/100) = 1 ∧
    (2 ∈ plls_apix sPllsTest 2735.1 (301/100) ↔
      (2 < sPllsTest.dispersion.length ∧
       sPllsTest.dispersion.getD 2 0 / (1 + plls_z 2735.1) > 914 ∧
       sPllsTest.dispersion.getD 2 0 < (1 + (301/100 : ℚ)) * 1026)) := by
  have hzmin : zmin_calc sPllsTest (plls_z 2735.1) = some (301/100) := by
    norm_num [zmin_calc, sPllsTest, sTest]
  have hr5 : List.range sPllsTest.dispersion.length = [0, 1, 2, 3, 4] := rfl
  have hap : plls_apix sPllsTest 2735.1 (301/100) = [1, 2, 3] := by
    simp only [plls_apix, hr5]
    norm_num [plls_wrest, plls_z, sPllsTest, sTest, List.getD]
  have hamax : plls_amax sPllsTest 2735.1 (301/100) = 3 := by
    rw [plls_amax, hap]; decide
  have hamin : plls_amin sPllsTest 2735.1 (301/100) = 1 := by
    rw [plls_amin, hap]; decide
  have hm1 : sPllsTest.dispersion.map
      (fun w => |w - 911.7 * (1 + (301/100 : ℚ))|) =
      [920.817, 905.917, 895.917, 0, 1344.083] := by
    norm_num [sPllsTest, sTest]
  have hm2 : sPllsTest.dispersion.map
      (fun w => |w - 911.7 * (1 + plls_z 2735.1)|) =
      [0, 14.9, 24.9, 920.817, 2264.9] := by
    norm_num [sPllsTest, sTest, plls_z]
  have harg1 : np_argmin (sPllsTest.dispersion.map
      (fun w => |w - 911.7 * (1 + (301/100 : ℚ))|)) = 3 := by
    rw [np_argmin, hm1]
    have hr : List.range
        ([920.817, 905.917, 895.917, 0, (1344.083 : ℚ)].length) =
        [0, 1, 2, 3, 4] := rfl
    rw [hr]
    simp only [List.foldl_cons, List.foldl_nil, List.getD]
    norm_num
  have harg2 : np_argmin (sPllsTest.dispersion.map
      (fun w => |w - 911.7 * (1 + plls_z 2735.1)|)) = 0 := by
    rw [np_argmin, hm2]
    have hr : List.range
        ([0, 14.9, 24.9, 920.817, (2264.9 : ℚ)].length) =
        [0, 1, 2, 3, 4] := rfl
    rw [hr]
    simp only [List.foldl_cons, List.foldl_nil, List.getD]
    norm_num
  have hnroll0 : plls_nroll0 sPllsTest 2735.1 (301/100) = 3 := by
    rw [plls_nroll0, harg1, harg2]
    norm_num
  have hnroll : plls_nroll sPllsTest 2735.1 (301/100) = 1 := by
    rw [plls_nroll, hnroll0, hamax]
    norm_num [sPllsTest, sTest]
  refine ⟨hzmin, hap, hnroll, ?_⟩
  exact (auto_plls_spec extTest sPllsTest 2735.1 1 (301/100) hzmin
    (by simp [sPllsTest, sTest])
    (by rw [hap]; simp)
    (by rw [hnroll]; norm_num)
    (by rw [hnroll, hamin]; decide)
    (by rw [hnroll, hamax]; decide)
    (by rw [hap, hamax, hamin]; decide)).1 2

end Xastropy
